import Mathlib

/-!
Verification development for the tender-scraper core of the bid-finder
repository (`server/scrape.js`, `server/htmlParser.js`, `server/db.js`,
`server/index.js`).

The JavaScript core is shallowly embedded as executable Lean functions:

* `clean`, `jsToLower`, `includesStr`, `ampDecode` model the string helpers
  used by the scraper (`clean` in htmlParser.js, `toLowerCase`/`includes`
  in scrape.js, the `&amp;` decoding of pagination hrefs).
* The five extraction strategies of htmlParser.js operate on a block-level
  view of the page: the lexical regex layer (which slices the raw markup
  into result blocks and captures sub-fields) is represented by structures
  whose optional fields hold exactly the regex capture groups; the
  per-block logic (field preference, guards, discards) is translated
  literally from the source.
* `dbInsertTender` and friends model the narrow store contract of db.js:
  an `INSERT OR IGNORE` keyed on the UNIQUE `link` and `ocid` columns,
  with SQLite semantics where NULL values never collide.
* `pageLoop`, `persistLoop`, `runInternal`, `runAll` are the run
  orchestrator of scrape.js.  Network fetches, URL resolution
  (`new URL(href, base).href`) and store-level faults are external
  effects and enter as parameters of `ScrapeEnv`.
-/

/-- JS whitespace as used by `\s`, `trim` and friends (ASCII portion). -/
def jsSpace (c : Char) : Bool :=
  c = ' ' || c = '\t' || c = '\n' || c = '\r' || c = '\x0b' || c = '\x0c'

/-- Drop characters up to and including the first `'>'`. Models how the
regex `<[^>]*>` consumes from a `'<'` through the nearest `'>'`. -/
def afterGt : List Char → List Char
  | [] => []
  | c :: rest => if c = '>' then rest else afterGt rest

/-- Worker for `stripTags`, structurally recursive on a fuel that bounds
the number of characters still to process (every step consumes at least
one character, so `l.length` fuel is always enough). -/
def stripTagsGo : Nat → List Char → List Char
  | 0, l => l
  | _ + 1, [] => []
  | fuel + 1, c :: rest =>
    if c = '<' && rest.contains '>' then stripTagsGo fuel (afterGt rest)
    else c :: stripTagsGo fuel rest

/-- `str.replace(/<[^>]*>/g, '')` from the `clean` helper of htmlParser.js:
each `'<'` that is followed (anywhere later) by a `'>'` starts a match that
runs through the nearest `'>'`; a `'<'` with no later `'>'` is literal. -/
def stripTags (l : List Char) : List Char :=
  stripTagsGo l.length l

/-- `str.replace(/\s+/g, ' ')`: collapse every maximal whitespace run to a
single space. The flag records whether the previous character was part of a
whitespace run. -/
def squashWs : Bool → List Char → List Char
  | _, [] => []
  | prev, c :: rest =>
    if jsSpace c then
      if prev then squashWs true rest else ' ' :: squashWs true rest
    else c :: squashWs false rest

/-- `str.trim()` (ASCII whitespace). -/
def trimWs (l : List Char) : List Char :=
  ((l.dropWhile jsSpace).reverse.dropWhile jsSpace).reverse

/-- The `clean` helper of htmlParser.js:
`str.replace(/<[^>]*>/g, '').replace(/\s+/g, ' ').trim()`. -/
def clean (s : String) : String :=
  String.mk (trimWs (squashWs false (stripTags s.toList)))

/-- `String.prototype.toLowerCase` (ASCII portion). -/
def jsToLower (s : String) : String :=
  String.mk (s.toList.map Char.toLower)

/-- `String.prototype.trim` on a string. -/
def jsTrim (s : String) : String :=
  String.mk (trimWs s.toList)

/-- `text.includes(pat)`: `pat` occurs as a contiguous substring of
`text`. -/
def includesStr (text pat : String) : Bool :=
  decide (pat.toList <:+: text.toList)

/-- Worker for `ampDecode`: replace each (leftmost, non-overlapping)
occurrence of `&amp;` with `&`.  The fuel bounds the characters still to
process; `l.length` is always enough. -/
def ampDecodeGo : Nat → List Char → List Char
  | 0, l => l
  | _ + 1, [] => []
  | fuel + 1, c :: rest =>
    if c = '&' && "amp;".toList.isPrefixOf rest then
      '&' :: ampDecodeGo fuel (rest.drop 4)
    else c :: ampDecodeGo fuel rest

/-- `href.replace(/&amp;/g, '&')` applied to pagination hrefs. -/
def ampDecode (s : String) : String :=
  String.mk (ampDecodeGo s.toList.length s.toList)

/-- `generateTags` from scrape.js: lower-case the space-joined title and
description once, then walk the rule list in declaration order, pushing the
tag of every rule one of whose (lower-cased) keywords occurs in the text. -/
def tagLoop (text : String) : List (String × List String) → List String
  | [] => []
  | (tag, keywords) :: rest =>
    if keywords.any (fun k => includesStr text (jsToLower k)) then
      tag :: tagLoop text rest
    else tagLoop text rest

/-- `generateTags(title, desc)` over an explicit rule set standing for
`config.tagRules` (`Object.entries` enumerates rules in declaration
order). -/
def generateTags (rules : List (String × List String)) (title desc : String) :
    List String :=
  tagLoop (jsToLower (title ++ " " ++ desc)) rules

/-- `a?.[1] || dflt` on an optional regex capture: a missing match or an
empty capture falls through to the default (JS string truthiness). -/
def jsOr (o : Option String) (dflt : String) : String :=
  match o with
  | some s => if s.isEmpty then dflt else s
  | none => dflt

/-- An Extracted Record, the common output shape of every strategy in
htmlParser.js (absent sub-fields become the empty string). -/
structure RawTender where
  title : String
  link : String
  date : String
  desc : String
  organisation : String
  supplier : String
  ocid : String
deriving Repr, DecidableEq, Inhabited

/-- One `search-result` block of Contracts Finder markup, as sliced by the
block regex of `parseContractsFinder`.  Each field holds the first capture
of the corresponding inner regex (`none` when the regex does not match):
`h2` the heading body, `anchor` the `(href, text)` of the first complete
anchor, `anyHref` the href of the first anchor open tag (the fallback when
no complete anchor exists), `timeTag`/`dateSpan` the two date sources,
`para` the first paragraph body, `orgSpan`/`supplierSpan` the labelled
spans, `dataOcid` a `data-ocid` attribute value, `ocdsText` an `ocds-...`
pattern occurrence. -/
structure CFBlock where
  h2 : Option String := none
  anchor : Option (String × String) := none
  anyHref : Option String := none
  timeTag : Option String := none
  dateSpan : Option String := none
  para : Option String := none
  orgSpan : Option String := none
  supplierSpan : Option String := none
  dataOcid : Option String := none
  ocdsText : Option String := none
deriving Repr, DecidableEq, Inhabited

/-- `title` of a Contracts Finder block: the `<h2>` body when present
(cleaned), else the anchor text, else the empty string. -/
def cfTitle (b : CFBlock) : String :=
  match b.h2 with
  | some t => clean t
  | none =>
    match b.anchor with
    | some a => clean a.2
    | none => ""

/-- `href` of a Contracts Finder block: the complete anchor's href, with
the open-tag-only fallback (`|| ''`). -/
def cfHref (b : CFBlock) : String :=
  match b.anchor with
  | some a => a.1
  | none => jsOr b.anyHref ""

/-- The Extracted Record a Contracts Finder block would produce. -/
def cfRecord (b : CFBlock) : RawTender :=
  { title := cfTitle b, link := cfHref b,
    date :=
      match b.timeTag.orElse (fun _ => b.dateSpan) with
      | some d => clean d
      | none => "",
    desc := clean (jsOr b.para ""),
    organisation :=
      match b.orgSpan with
      | some o => clean o
      | none => "",
    supplier :=
      match b.supplierSpan with
      | some s => clean s
      | none => "",
    ocid := (b.dataOcid.orElse (fun _ => b.ocdsText)).getD "" }

/-- The `if (href && title)` guard of `parseContractsFinder`. -/
def cfKeep (b : CFBlock) : Bool :=
  !(cfHref b).isEmpty && !(cfTitle b).isEmpty

/-- `parseContractsFinder` from htmlParser.js, block by block. -/
def parseContractsFinder : List CFBlock → List RawTender
  | [] => []
  | b :: rest =>
    if cfKeep b then cfRecord b :: parseContractsFinder rest
    else parseContractsFinder rest

/-- One `<tr>` block of Sell2Wales markup: the first complete anchor, the
raw date-pattern capture, the `<time>` body, the description cell body,
the first paragraph body, and the two ocid sources. -/
structure S2WBlock where
  anchor : Option (String × String) := none
  datePat : Option String := none
  timeTag : Option String := none
  descTd : Option String := none
  para : Option String := none
  dataOcid : Option String := none
  ocdsText : Option String := none
deriving Repr, DecidableEq, Inhabited

/-- The Extracted Record a Sell2Wales row with anchor `a` would
produce. -/
def s2wRecord (b : S2WBlock) (a : String × String) : RawTender :=
  { title := clean a.2, link := a.1,
    date :=
      match b.datePat.orElse (fun _ => b.timeTag) with
      | some d => clean d
      | none => "",
    desc := clean (jsOr b.descTd (jsOr b.para "")),
    organisation := "", supplier := "",
    ocid := (b.dataOcid.orElse (fun _ => b.ocdsText)).getD "" }

/-- The `if (title && href)` guard of `parseSell2Wales`. -/
def s2wKeep (a : String × String) : Bool :=
  !(clean a.2).isEmpty && !a.1.isEmpty

/-- `parseSell2Wales` from htmlParser.js: rows without a complete anchor
are skipped with `continue`; the rest are pushed when title and href are
both truthy. -/
def parseSell2Wales : List S2WBlock → List RawTender
  | [] => []
  | b :: rest =>
    match b.anchor with
    | none => parseSell2Wales rest
    | some a =>
      if s2wKeep a then s2wRecord b a :: parseSell2Wales rest
      else parseSell2Wales rest

/-- One `<article>` block of UKRI markup. -/
structure UkriBlock where
  anchor : Option (String × String) := none
  timeTag : Option String := none
  para : Option String := none
  dataOcid : Option String := none
  ocdsText : Option String := none
deriving Repr, DecidableEq, Inhabited

/-- Does the character list start with `contact`, one or more whitespace
characters, then `us` (the body of the `/contact\s+us/i` test, on
lower-cased input)? -/
def contactUsAt (l : List Char) : Bool :=
  "contact".toList.isPrefixOf l &&
    (let rest := l.drop 7
     match rest with
     | [] => false
     | c :: _ => jsSpace c && "us".toList.isPrefixOf (rest.dropWhile jsSpace))

/-- `/contact\s+us/i.test(title)`. -/
def testContactUs (title : String) : Bool :=
  ((jsToLower title).toList.tails).any contactUsAt

/-- The Extracted Record a UKRI article with anchor `a` would produce. -/
def ukriRecord (b : UkriBlock) (a : String × String) : RawTender :=
  { title := clean a.2, link := a.1,
    date := clean (jsOr b.timeTag ""),
    desc := clean (jsOr b.para ""),
    organisation := "", supplier := "",
    ocid := (b.dataOcid.orElse (fun _ => b.ocdsText)).getD "" }

/-- `parseUkri` from htmlParser.js: articles without a complete anchor are
skipped; a block is pushed unless its title matches `/contact\s+us/i`. -/
def parseUkri : List UkriBlock → List RawTender
  | [] => []
  | b :: rest =>
    match b.anchor with
    | none => parseUkri rest
    | some a =>
      if !(testContactUs (clean a.2)) then
        ukriRecord b a :: parseUkri rest
      else parseUkri rest

/-- One `<tr>` block of an EU-Supply public tender table. -/
structure EUBlock where
  anchor : Option (String × String) := none
  datePat : Option String := none
  descTd : Option String := none
  dataOcid : Option String := none
  ocdsText : Option String := none
deriving Repr, DecidableEq, Inhabited

/-- The Extracted Record an EU-Supply row with anchor `a` produces. -/
def euRecord (b : EUBlock) (a : String × String) : RawTender :=
  { title := jsTrim a.2, link := a.1,
    date := jsOr b.datePat "",
    desc :=
      match b.descTd with
      | some d => jsTrim d
      | none => "",
    organisation := "", supplier := "",
    ocid := (b.dataOcid.orElse (fun _ => b.ocdsText)).getD "" }

/-- `parseEuSupply` from htmlParser.js: rows without a complete anchor are
skipped; every remaining row is pushed unconditionally (note: no title
guard, unlike the other document strategies). -/
def parseEuSupply : List EUBlock → List RawTender
  | [] => []
  | b :: rest =>
    match b.anchor with
    | none => parseEuSupply rest
    | some a => euRecord b a :: parseEuSupply rest

/-- One `<item>` block of an RSS feed: the captured bodies of the
`title`, `link`, `pubDate`/`dc:date`, `description` and `ocid`
sub-elements. -/
structure RssItem where
  titleTag : Option String := none
  linkTag : Option String := none
  dateTag : Option String := none
  descTag : Option String := none
  ocidTag : Option String := none
  ocdsText : Option String := none
deriving Repr, DecidableEq, Inhabited

/-- The Extracted Record an RSS item would produce. -/
def rssRecord (b : RssItem) : RawTender :=
  { title := clean (jsOr b.titleTag ""), link := clean (jsOr b.linkTag ""),
    date := clean (jsOr b.dateTag ""),
    desc := clean (jsOr b.descTag ""),
    organisation := "", supplier := "",
    ocid := (b.ocidTag.orElse (fun _ => b.ocdsText)).getD "" }

/-- The `if (title && href)` guard of `parseRss`. -/
def rssKeep (b : RssItem) : Bool :=
  !(clean (jsOr b.titleTag "")).isEmpty && !(clean (jsOr b.linkTag "")).isEmpty

/-- `parseRss` from htmlParser.js. -/
def parseRss : List RssItem → List RawTender
  | [] => []
  | b :: rest =>
    if rssKeep b then rssRecord b :: parseRss rest
    else parseRss rest

/-- A fetched Raw Listing Page.  The five block lists are the five
strategy-specific views that the regex layer of htmlParser.js produces
from the same markup; `relNext`, `attrNext` and `textNext` hold the href
captures of the three pagination-hint regexes of scrape.js, in their
priority order. -/
structure RawPage where
  cfBlocks : List CFBlock := []
  s2wRows : List S2WBlock := []
  ukriArts : List UkriBlock := []
  euRows : List EUBlock := []
  rssItems : List RssItem := []
  relNext : Option String := none
  attrNext : Option String := none
  textNext : Option String := none
deriving Repr, DecidableEq, Inhabited

/-- `parseTenders(html, site)` from htmlParser.js: dispatch on the site
key; unknown keys fall through to the Contracts Finder strategy. -/
def parseTenders (page : RawPage) (site : String) : List RawTender :=
  if site = "eusupply" then parseEuSupply page.euRows
  else if site = "sell2wales" then parseSell2Wales page.s2wRows
  else if site = "ukri" then parseUkri page.ukriArts
  else if site = "rss" then parseRss page.rssItems
  else parseContractsFinder page.cfBlocks

/-- A row of the `tenders` table (the columns the scraper writes; `ocid`
is `NULL`-able, matching the `ocid TEXT UNIQUE` column). -/
structure TenderRow where
  title : String
  link : String
  ocid : Option String
  date : String
  description : String
  source : String
  scraped_at : String
  tags : String
deriving Repr, DecidableEq, Inhabited

/-- The slice of the SQLite store the run orchestrator touches. -/
structure DBState where
  tenders : List TenderRow := []
  organisations : List (String × String) := []
  lastScraped : Option String := none
  /-- `source_stats` rows: key, last run timestamp, last added, running
  total. -/
  sourceStats : List (String × String × Nat × Nat) := []
deriving Repr, DecidableEq, Inhabited

/-- The empty starting store. -/
def emptyDB : DBState := {}

/-- Does `row`'s link violate the `link` UNIQUE constraint? -/
def linkDup (db : DBState) (row : TenderRow) : Bool :=
  db.tenders.any (fun r => r.link == row.link)

/-- Does `row`'s ocid violate the `ocid` UNIQUE constraint?  A NULL ocid
never does (SQLite treats NULL as distinct from everything). -/
def ocidDup (db : DBState) (row : TenderRow) : Bool :=
  match row.ocid with
  | some o => db.tenders.any (fun r => r.ocid == some o)
  | none => false

/-- `insertTender` from db.js: `INSERT OR IGNORE` into a table whose
`link` and `ocid` columns are UNIQUE.  A row is ignored (0 changes) when
its link already exists or when its ocid is non-NULL and already
exists. -/
def dbInsertTender (db : DBState) (row : TenderRow) : DBState × Nat :=
  if linkDup db row || ocidDup db row then (db, 0)
  else ({ db with tenders := db.tenders ++ [row] }, 1)

/-- `insertOrganisation` from db.js: `INSERT OR IGNORE` keyed on
`UNIQUE(name, type)`. -/
def dbInsertOrganisation (db : DBState) (name type : String) : DBState × Nat :=
  if db.organisations.any (fun p => p.1 == name && p.2 == type) then (db, 0)
  else ({ db with organisations := db.organisations ++ [(name, type)] }, 1)

/-- `setLastScraped` from db.js: upsert of the `last_scraped` metadata
key. -/
def dbSetLastScraped (db : DBState) (ts : String) : DBState :=
  { db with lastScraped := some ts }

/-- `updateSourceStats` from db.js: upsert of a `source_stats` row, with
`total` accumulating the added count. -/
def dbUpdateSourceStats (db : DBState) (key ts : String) (added : Nat) :
    DBState :=
  if db.sourceStats.any (fun p => p.1 == key) then
    { db with
      sourceStats := db.sourceStats.map (fun p =>
        if p.1 == key then (key, ts, added, p.2.2.2 + added) else p) }
  else
    { db with sourceStats := db.sourceStats ++ [(key, ts, added, added)] }

/-- A Source Descriptor as stored in `config.sources`. -/
structure SrcCfg where
  label : String
  url : String
  base : String
  parser : String
deriving Repr, DecidableEq, Inhabited

/-- The external effects of a run: `fetch` is the network layer
(`fetch(url).text()` followed by the regex layer, so it yields a
block-level `RawPage`, or throws), `resolve` is
`href => new URL(href, src.base).href`, and `insertFails` marks the
resolved links whose store insert raises a SQLite-level error. -/
structure ScrapeEnv where
  fetch : String → Except String RawPage
  resolve : String → String
  tagRules : List (String × List String)
  insertFails : String → Bool := fun _ => false

/-- The first pagination hint of a fetched page, in the priority order of
scrape.js: `rel=next` link element, then an anchor whose attributes
mention `next`, then an anchor with a Next-like visible text. -/
def pageNextHref (p : RawPage) : Option String :=
  p.relNext.orElse (fun _ => p.attrNext.orElse (fun _ => p.textNext))

/-- The `while (nextUrl)` pagination loop of `runInternal`
(scrape.js lines 82-117), with an explicit fuel bound on the number of
iterations the model unfolds.  The nextUrl state is a `String`; `""`
stands for JS `null` (both are falsy, ending the loop).  Result `none`
means the loop was still running when the fuel ran out; `some (.error e)`
means a fetch threw `e`; `some (.ok ts)` means the loop ended normally
having accumulated `ts`.  Note that the loop keeps no record of visited
URLs. -/
def pageLoop (env : ScrapeEnv) (site : String) :
    Nat → String → Option (Except String (List RawTender))
  | 0, url => if url = "" then some (Except.ok []) else none
  | fuel + 1, url =>
    if url = "" then some (Except.ok [])
    else
      match env.fetch url with
      | Except.error e => some (Except.error e)
      | Except.ok page =>
        let next :=
          match pageNextHref page with
          | some href => env.resolve (ampDecode href)
          | none => ""
        match pageLoop env site fuel next with
        | none => none
        | some (Except.error e) => some (Except.error e)
        | some (Except.ok rest) =>
          some (Except.ok (parseTenders page site ++ rest))

/-- The number of fetches the pagination loop performs within the first
`fuel` iterations. -/
def pagesFetched (env : ScrapeEnv) : Nat → String → Nat
  | 0, _ => 0
  | fuel + 1, url =>
    if url = "" then 0
    else
      match env.fetch url with
      | Except.error _ => 1
      | Except.ok page =>
        let next :=
          match pageNextHref page with
          | some href => env.resolve (ampDecode href)
          | none => ""
        1 + pagesFetched env fuel next

instance {ε α : Type} [DecidableEq ε] [DecidableEq α] :
    DecidableEq (Except ε α)
  | Except.error a, Except.error b =>
    if h : a = b then Decidable.isTrue (by rw [h])
    else Decidable.isFalse (by intro hc; injection hc with h2; exact h h2)
  | Except.error _, Except.ok _ =>
    Decidable.isFalse (by intro hc; exact Except.noConfusion hc)
  | Except.ok _, Except.error _ =>
    Decidable.isFalse (by intro hc; exact Except.noConfusion hc)
  | Except.ok a, Except.ok b =>
    if h : a = b then Decidable.isTrue (by rw [h])
    else Decidable.isFalse (by intro hc; injection hc with h2; exact h h2)

/-- The progress events `runInternal` reports through `onProgress`. -/
inductive ProgressEvent where
  | start (label : String) (url : String)
  | found (count : Nat)
  | tender (title : String) (index : Nat) (total : Nat) (inserted : Bool)
deriving Repr, DecidableEq, Inhabited

/-- The Normalized Tender row `runInternal` builds for one Extracted
Record: resolved link, derived tags (comma-joined), the source label and
the run-wide timestamp — and no ocid (the `insertTender` call passes
seven arguments, so the `ocid` parameter takes its `null` default). -/
def tenderRowOf (env : ScrapeEnv) (label runTs : String) (t : RawTender) :
    TenderRow :=
  { title := t.title, link := env.resolve t.link, ocid := none,
    date := t.date, description := t.desc, source := label,
    scraped_at := runTs,
    tags := String.intercalate "," (generateTags env.tagRules t.title t.desc) }

/-- One store-insert attempt of the persistence loop: a store-level error
(`insertFails`) is caught by the `try`/`catch`, leaving `inserted` at 0
and the store untouched; otherwise the idempotent insert runs. -/
def insertAttempt (env : ScrapeEnv) (label runTs : String) (t : RawTender)
    (db : DBState) : DBState × Nat :=
  if env.insertFails (env.resolve t.link) then (db, 0)
  else dbInsertTender db (tenderRowOf env label runTs t)

/-- After a successful insert of a record with a truthy organisation, the
best-effort organisation registration. -/
def afterOrg (t : RawTender) (step : DBState × Nat) :
    DBState :=
  if step.2 ≠ 0 && !t.organisation.isEmpty then
    (dbInsertOrganisation step.1 t.organisation "customer").1
  else step.1

/-- The persistence loop of `runInternal` (scrape.js lines 139-198): for
the record at 0-based position `idx`, resolve the link, derive tags,
attempt the store insert (a store error is caught, leaving `inserted`
at 0), on success optionally register the organisation, then emit one
`tender` event with the 1-based index, the total and the inserted flag.
Returns the store, the number of inserted rows and the events, in
order. -/
def persistLoop (env : ScrapeEnv) (label runTs : String) (total : Nat) :
    Nat → List RawTender → DBState → DBState × Nat × List ProgressEvent
  | _, [], db => (db, 0, [])
  | idx, t :: rest, db =>
    let step := insertAttempt env label runTs t db
    let next :=
      persistLoop env label runTs total (idx + 1) rest (afterOrg t step)
    (next.1, (if step.2 ≠ 0 then 1 else 0) + next.2.1,
      ProgressEvent.tender t.title (idx + 1) total (step.2 ≠ 0) :: next.2.2)

/-- The outcome of one `runInternal` call: the added count, the surfaced
error (as in the `{added, error}` result object), the progress events in
emission order, and the store afterwards. -/
structure RunOutcome where
  added : Nat
  error : Option String
  events : List ProgressEvent
  db : DBState
deriving Repr, DecidableEq, Inhabited

/-- `runInternal(onProgress, sourceKey, source)` from scrape.js: emit the
start event, drive the pagination loop accumulating every record, emit the
found event, persist each record in page order under one run-wide
timestamp, then record the completion timestamp and (for a truthy source
key) the per-source statistics.  A fetch-layer error short-circuits to a
zero added count with the error attached and the store untouched.
`none` means the pagination loop outran the fuel. -/
def runInternal (env : ScrapeEnv) (src : SrcCfg) (sourceKey : Option String)
    (runTs : String) (fuel : Nat) (db : DBState) : Option RunOutcome :=
  let startEv := ProgressEvent.start src.label src.url
  match pageLoop env src.parser fuel src.url with
  | none => none
  | some (Except.error e) =>
    some { added := 0, error := some e, events := [startEv], db := db }
  | some (Except.ok allTenders) =>
    let total := allTenders.length
    let p := persistLoop env src.label runTs total 0 allTenders db
    let db1 := dbSetLastScraped p.1 runTs
    let db2 :=
      match sourceKey with
      | some key => dbUpdateSourceStats db1 key runTs p.2.1
      | none => db1
    some { added := p.2.1, error := none,
           events := startEv :: ProgressEvent.found total :: p.2.2, db := db2 }

/-- The aggregate outcome of `runAll`: the per-source results in source
order (key, added count, error message), the key-tagged progress events,
and the final store. -/
structure AllOutcome where
  results : List (String × Nat × Option String)
  events : List (String × ProgressEvent)
  db : DBState
deriving Repr, DecidableEq, Inhabited

/-- `runAll(onProgress)` from scrape.js: iterate `config.sources` in
declaration order, run each source through `runInternal` (passing its key
both as the stats key and as the tag every forwarded progress event
carries), and record `{added, error?.message}` per key.  An error result
is logged and recorded, and iteration continues. -/
def runAll (env : ScrapeEnv) (runTs : String) (fuel : Nat) :
    List (String × SrcCfg) → DBState → Option AllOutcome
  | [], db => some { results := [], events := [], db := db }
  | (key, src) :: rest, db =>
    match runInternal env src (some key) runTs fuel db with
    | none => none
    | some r =>
      match runAll env runTs fuel rest r.db with
      | none => none
      | some a =>
        some { results := (key, r.added, r.error) :: a.results,
               events := r.events.map (fun e => (key, e)) ++ a.events,
               db := a.db }

/-- A `POST /sources` request body (index.js): absent fields are `none`;
JS destructuring gives `parser` the default `'contractsFinder'` only when
the field is absent. -/
structure SourceBody where
  key : Option String := none
  label : Option String := none
  url : Option String := none
  base : Option String := none
  parser : Option String := none
deriving Repr, DecidableEq, Inhabited

/-- JS string truthiness of an optional field: absent and `""` are both
falsy. -/
def jsTruthy (o : Option String) : Bool :=
  match o with
  | some s => !s.isEmpty
  | none => false

/-- The response of the `POST /sources` handler. -/
inductive SrcResp where
  | badRequest (msg : String)
  | success
deriving Repr, DecidableEq

/-- The `POST /sources` handler of index.js (lines 272-295): reject when a
required field is missing or empty, reject a duplicate key, otherwise
persist the descriptor and register it in `config.sources`.  No other
validation is performed. -/
def postSources (sources : List (String × SrcCfg)) (body : SourceBody) :
    (SrcResp × List (String × SrcCfg)) :=
  if !(jsTruthy body.key && jsTruthy body.label && jsTruthy body.url &&
        jsTruthy body.base) then
    (SrcResp.badRequest "Missing required fields", sources)
  else if sources.any (fun p => p.1 == body.key.getD "") then
    (SrcResp.badRequest "Source key already exists", sources)
  else
    (SrcResp.success,
      sources ++ [(body.key.getD "",
        { label := body.label.getD "", url := body.url.getD "",
          base := body.base.getD "",
          parser := body.parser.getD "contractsFinder" })])

/-! Concrete fixtures used to settle the claims. -/

/-- A well-formed Contracts Finder block: heading, anchor with a generic
link text, -/
def cfDemoBlock (t l : String) : CFBlock :=
  { h2 := some t, anchor := some (l, "View") }

/-- First page of the cyclic pagination fixture: its next hint points at
page 2. -/
def cycPage1 : RawPage := { relNext := some "/2" }

/-- Second page of the cyclic pagination fixture: its next hint points
back at page 1. -/
def cycPage2 : RawPage := { relNext := some "/1" }

/-- URL of page 1 of the cyclic fixture. -/
def cycUrl1 : String := "https://cyc.example/1"

/-- URL of page 2 of the cyclic fixture. -/
def cycUrl2 : String := "https://cyc.example/2"

/-- An environment whose two listing pages link to each other in a cycle:
exactly two distinct URLs are ever involved. -/
def cycEnv : ScrapeEnv :=
  { fetch := fun u =>
      if u = cycUrl1 then Except.ok cycPage1
      else if u = cycUrl2 then Except.ok cycPage2
      else Except.error "404",
    resolve := fun h => "https://cyc.example" ++ h,
    tagRules := [] }

/-- Page 1 of the two-page scenario: two well-formed records and a next
hint. -/
def scenPage1 : RawPage :=
  { cfBlocks := [cfDemoBlock "T1" "/t1", cfDemoBlock "T2" "/t2"],
    relNext := some "/page2" }

/-- Page 2 of the two-page scenario: one well-formed record, no next
hint. -/
def scenPage2 : RawPage := { cfBlocks := [cfDemoBlock "T3" "/t3"] }

/-- Environment of the two-page scenario. -/
def scenEnv : ScrapeEnv :=
  { fetch := fun u =>
      if u = "https://scen.example/start" then Except.ok scenPage1
      else if u = "https://scen.example/page2" then Except.ok scenPage2
      else Except.error "404",
    resolve := fun h => "https://scen.example" ++ h,
    tagRules := [] }

/-- Source descriptor of the two-page scenario. -/
def scenSrc : SrcCfg :=
  { label := "Scenario", url := "https://scen.example/start",
    base := "https://scen.example", parser := "contractsFinder" }

/-- A block carrying an explicit open-contracting identifier. -/
def dupBlock (t l : String) : CFBlock :=
  { h2 := some t, anchor := some (l, "View"),
    dataOcid := some "ocds-b5fd17-0001" }

/-- A listing page with two candidate records that share the same
non-empty ocid but differ in link and title. -/
def dupPage : RawPage :=
  { cfBlocks := [dupBlock "Tender A" "/a", dupBlock "Tender B" "/b"] }

/-- Environment serving `dupPage` as the single listing page. -/
def dupEnv : ScrapeEnv :=
  { fetch := fun u =>
      if u = "https://dup.example/list" then Except.ok dupPage
      else Except.error "404",
    resolve := fun h => "https://dup.example" ++ h,
    tagRules := [] }

/-- Source descriptor of the shared-ocid fixture. -/
def dupSrc : SrcCfg :=
  { label := "Dup", url := "https://dup.example/list",
    base := "https://dup.example", parser := "contractsFinder" }

/-- An environment whose fetch always throws. -/
def failEnv : ScrapeEnv :=
  { fetch := fun _ => Except.error "ECONNREFUSED",
    resolve := fun h => h,
    tagRules := [] }

/-- Source descriptor of the failing fixture. -/
def failSrc : SrcCfg :=
  { label := "Down", url := "https://down.example/list",
    base := "https://down.example", parser := "contractsFinder" }

/-- A single-record page for the multi-source fixture. -/
def goodPage : RawPage := { cfBlocks := [cfDemoBlock "G1" "/g1"] }

/-- A source whose fetch fails in the multi-source fixture. -/
def badSrc : SrcCfg :=
  { label := "Bad", url := "https://bad.example/x",
    base := "https://bad.example", parser := "contractsFinder" }

/-- A source whose fetch succeeds in the multi-source fixture. -/
def goodSrc : SrcCfg :=
  { label := "Good", url := "https://good.example/x",
    base := "https://good.example", parser := "contractsFinder" }

/-- Environment for the multi-source fixture: the `bad` source's URL is
unreachable, the `good` source serves one record. -/
def multiEnv : ScrapeEnv :=
  { fetch := fun u =>
      if u = "https://good.example/x" then Except.ok goodPage
      else Except.error "down",
    resolve := fun h => "https://good.example" ++ h,
    tagRules := [] }

/-- The aggregate outcome of running the multi-source fixture. -/
def multiOutcome : AllOutcome :=
  match runAll multiEnv "2024-01-01T00:00:00Z" 2
      [("bad", badSrc), ("good", goodSrc)] emptyDB with
  | some a => a
  | none => default

/-- The outcome of running the shared-ocid fixture. -/
def dupOutcome : RunOutcome :=
  match runInternal dupEnv dupSrc (some "default") "2024-01-01T00:00:00Z" 2
      emptyDB with
  | some r => r
  | none => default

/-- Well-formedness of EU-Supply rows delivered by the regex layer: an
href capture group `([^"]+)` is never the empty string. -/
def euRowsWF (bs : List EUBlock) : Bool :=
  bs.all (fun b =>
    match b.anchor with
    | some a => !a.1.isEmpty
    | none => true)

/-- Well-formedness of UKRI article blocks delivered by the regex layer:
an href capture group `([^"]+)` is never the empty string. -/
def ukriArtsWF (bs : List UkriBlock) : Bool :=
  bs.all (fun b =>
    match b.anchor with
    | some a => !a.1.isEmpty
    | none => true)

/-- A malformed Contracts Finder block: a heading but no anchor of any
kind (no link). -/
def cfMalformed : CFBlock := { h2 := some "No link here" }

/-- A malformed Sell2Wales row: no anchor. -/
def s2wMalformed : S2WBlock := { descTd := some "orphan row" }

/-- A malformed UKRI article: no anchor. -/
def ukriMalformed : UkriBlock := { para := some "orphan article" }

/-- A malformed EU-Supply row: no anchor. -/
def euMalformed : EUBlock := { descTd := some "orphan row" }

/-- A malformed RSS item: no `link` element. -/
def rssMalformed : RssItem := { titleTag := some "No link item" }

/-- A well-formed Sell2Wales row. -/
def s2wGood : S2WBlock := { anchor := some ("/w1", "Wales tender") }

/-- A well-formed UKRI article. -/
def ukriGood : UkriBlock := { anchor := some ("/u1", "UKRI call") }

/-- A well-formed EU-Supply row. -/
def euGood : EUBlock := { anchor := some ("/e1", "EU tender") }

/-- A well-formed RSS item. -/
def rssGood : RssItem :=
  { titleTag := some "Feed tender", linkTag := some "https://feed.example/f1" }

/-- The request body of the non-HTTPS source-creation attempt (the input
of the repository's own `url-validation` test). -/
def insecureBody : SourceBody :=
  { key := some "insecure", label := some "Insecure",
    url := some "http://www.contractsfinder.service.gov.uk/rss",
    base := some "http://www.contractsfinder.service.gov.uk" }

/-- A page whose first record's resolved link is marked as raising a
store-level error. -/
def errPage : RawPage :=
  { cfBlocks := [cfDemoBlock "Bad" "/bad", cfDemoBlock "Ok" "/ok"] }

/-- Environment whose store insert throws for the first record's resolved
link. -/
def errEnv : ScrapeEnv :=
  { fetch := fun u =>
      if u = "https://err.example/list" then Except.ok errPage
      else Except.error "404",
    resolve := fun h => "https://err.example" ++ h,
    tagRules := [],
    insertFails := fun l => l == "https://err.example/bad" }

/-- Source descriptor of the store-error fixture. -/
def errSrc : SrcCfg :=
  { label := "Err", url := "https://err.example/list",
    base := "https://err.example", parser := "contractsFinder" }

/-! Claim theorems. -/

/-- C1 (counterexample): on the cyclic two-URL fixture the pagination
loop of `runInternal` does not stop after the two distinct URLs: allowed
five iterations it performs five fetches and is still running, because
the loop keeps no visited-URL set. -/
theorem pagination_cycle_infinite_counterexample :
  pagesFetched cycEnv 5 cycUrl1 = 5 ∧
  pageLoop cycEnv "contractsFinder" 5 cycUrl1 = none := by
  decide

/-- C5: on the two-page scenario source (page 1: two well-formed records
plus a next hint, page 2: one record and no hint) a run on the empty
store emits exactly start, found 3, and three tender events indexed 1..3
with total 3, and returns an added count of 3. -/
theorem two_page_scenario_events :
  (runInternal scenEnv scenSrc (some "default") "2024-01-01T00:00:00Z" 3
      emptyDB).map RunOutcome.events =
    some [ProgressEvent.start "Scenario" "https://scen.example/start",
          ProgressEvent.found 3,
          ProgressEvent.tender "T1" 1 3 true,
          ProgressEvent.tender "T2" 2 3 true,
          ProgressEvent.tender "T3" 3 3 true] ∧
  (runInternal scenEnv scenSrc (some "default") "2024-01-01T00:00:00Z" 3
      emptyDB).map RunOutcome.added = some 3 := by
  decide

/-- C2 (code evaluated at the failing input): the single listing page of
`dupEnv` yields two candidate records with the same non-empty ocid and
different links and titles, yet the run stores two rows, both with a NULL
ocid — `runInternal` never forwards the extracted ocid to
`insertTender`. -/
theorem run_shared_ocid_two_rows :
  (parseTenders dupPage "contractsFinder").map RawTender.ocid =
    ["ocds-b5fd17-0001", "ocds-b5fd17-0001"] ∧
  (parseTenders dupPage "contractsFinder").map RawTender.link =
    ["/a", "/b"] ∧
  dupOutcome.db.tenders.length = 2 ∧
  dupOutcome.db.tenders.map TenderRow.ocid = [none, none] := by
  decide

/-- C3 (counterexample): the EU-Supply strategy pushes a row whose anchor
text is empty, producing an Extracted Record with an empty title — a
block missing its title is not discarded by every strategy. -/
theorem eusupply_empty_title_counterexample :
  parseEuSupply [{ anchor := some ("https://eu.example/t", "") }] =
    [{ title := "", link := "https://eu.example/t", date := "", desc := "",
       organisation := "", supplier := "", ocid := "" }] := by
  decide

/-- C8 (code evaluated at the failing input): the `POST /sources` handler
accepts a descriptor whose url and base use the HTTP scheme — only field
presence and key uniqueness are checked, there is no HTTPS validation —
while an unregistered strategy name does fall back to the Contracts
Finder strategy at dispatch. -/
theorem post_sources_accepts_http :
  postSources [] insecureBody =
    (SrcResp.success,
      [("insecure",
        { label := "Insecure",
          url := "http://www.contractsfinder.service.gov.uk/rss",
          base := "http://www.contractsfinder.service.gov.uk",
          parser := "contractsFinder" })]) ∧
  parseTenders scenPage1 "no-such-strategy" =
    parseContractsFinder scenPage1.cfBlocks := by
  decide

/-- C7 (counterexample): with rule `("t", ["ab"])`, title `"xa"` and
description `"by"`, the keyword `"ab"` occurs (case-insensitively) as a
substring of the concatenation of title and description, yet
`generateTags` returns the empty list — the classifier matches against
the space-separated join, not the plain concatenation. -/
theorem generateTags_concat_counterexample :
  generateTags [("t", ["ab"])] "xa" "by" = [] ∧
  (jsToLower "ab").toList <:+: (jsToLower ("xa" ++ "by")).toList := by
  refine ⟨by decide, ?_⟩
  decide

/-- C4: a fetch-layer error short-circuits the run: `runInternal` returns
a zero added count with the error attached, having emitted only the start
event, and the store — including the completion timestamp and the
per-source statistics — is exactly as before the run. -/
theorem fetch_error_short_circuits
    (env : ScrapeEnv) (src : SrcCfg) (key : Option String) (ts : String)
    (fuel : Nat) (db : DBState) (e : String)
    (h : pageLoop env src.parser fuel src.url = some (Except.error e)) :
    runInternal env src key ts fuel db =
      some { added := 0, error := some e,
             events := [ProgressEvent.start src.label src.url], db := db } := by
  unfold runInternal
  rw [h]

/-- C4 witness: the theorem applied to the always-failing fixture. -/
theorem fetch_error_short_circuits_witness :
  runInternal failEnv failSrc (some "default") "2024-01-01T00:00:00Z" 1
      emptyDB =
    some { added := 0, error := some "ECONNREFUSED",
           events := [ProgressEvent.start "Down" "https://down.example/list"],
           db := emptyDB } :=
  fetch_error_short_circuits failEnv failSrc (some "default")
    "2024-01-01T00:00:00Z" 1 emptyDB "ECONNREFUSED" rfl

/-- The pagination loop on an empty (falsy) nextUrl returns immediately
with no records. -/
theorem pageLoop_done (env : ScrapeEnv) (site : String) :
    ∀ n, pageLoop env site n "" = some (Except.ok []) := by
  intro n
  cases n <;> rfl

/-- One unfolding of the cyclic fixture's loop from page 1. -/
theorem cyc_step1 (n : Nat) :
    pageLoop cycEnv "contractsFinder" (n + 1) cycUrl1 =
      (match pageLoop cycEnv "contractsFinder" n cycUrl2 with
       | none => none
       | some (Except.error e) => some (Except.error e)
       | some (Except.ok rest) => some (Except.ok rest)) := by
  rfl

/-- One unfolding of the cyclic fixture's loop from page 2. -/
theorem cyc_step2 (n : Nat) :
    pageLoop cycEnv "contractsFinder" (n + 1) cycUrl2 =
      (match pageLoop cycEnv "contractsFinder" n cycUrl1 with
       | none => none
       | some (Except.error e) => some (Except.error e)
       | some (Except.ok rest) => some (Except.ok rest)) := by
  rfl

/-- One unfolding of the cyclic fixture's fetch count from page 1. -/
theorem cyc_count1 (n : Nat) :
    pagesFetched cycEnv (n + 1) cycUrl1 = 1 + pagesFetched cycEnv n cycUrl2 := by
  rfl

/-- One unfolding of the cyclic fixture's fetch count from page 2. -/
theorem cyc_count2 (n : Nat) :
    pagesFetched cycEnv (n + 1) cycUrl2 = 1 + pagesFetched cycEnv n cycUrl1 := by
  rfl

/-- On the cyclic fixture the loop performs one fetch per fuel unit from
either of the two URLs and never finishes. -/
theorem cyc_runs_forever (n : Nat) :
    (pageLoop cycEnv "contractsFinder" n cycUrl1 = none ∧
     pagesFetched cycEnv n cycUrl1 = n) ∧
    (pageLoop cycEnv "contractsFinder" n cycUrl2 = none ∧
     pagesFetched cycEnv n cycUrl2 = n) := by
  induction n with
  | zero => exact ⟨⟨by decide, by decide⟩, ⟨by decide, by decide⟩⟩
  | succ n ih =>
    refine ⟨⟨?_, ?_⟩, ⟨?_, ?_⟩⟩
    · rw [cyc_step1, ih.2.1]
    · rw [cyc_count1, ih.2.2, Nat.add_comm]
    · rw [cyc_step2, ih.1.1]
    · rw [cyc_count2, ih.1.2, Nat.add_comm]

/-- C1 (amended): the pagination loop stops when, and only when, a page
without a next-page hint is reached (first conjunct: a hint-free page
ends the loop with that page's records).  There is no visited-URL cycle
guard: on the two-URL cyclic fixture the loop performs one fetch per
permitted iteration — `n` fetches for every allowance `n`, not the
number of distinct URLs — and never completes (second conjunct). -/
theorem pagination_termination_amended :
  (∀ (env : ScrapeEnv) (site url : String) (p : RawPage) (n : Nat),
    url ≠ "" → env.fetch url = Except.ok p → pageNextHref p = none →
    pageLoop env site (n + 1) url = some (Except.ok (parseTenders p site))) ∧
  (∀ n : Nat,
    pageLoop cycEnv "contractsFinder" n cycUrl1 = none ∧
    pagesFetched cycEnv n cycUrl1 = n) := by
  constructor
  · intro env site url p n hu hf hn
    simp only [pageLoop, if_neg hu, hf, hn, pageLoop_done, List.append_nil]
  · intro n
    exact (cyc_runs_forever n).1

/-- C1 witness: the stop-on-no-hint half applied to the scenario's last
page. -/
theorem pagination_termination_amended_witness :
  pageLoop scenEnv "contractsFinder" 1 "https://scen.example/page2" =
    some (Except.ok (parseTenders scenPage2 "contractsFinder")) :=
  pagination_termination_amended.1 scenEnv "contractsFinder"
    "https://scen.example/page2" scenPage2 0 (by decide) (by decide) rfl

/-- `runAll` covers every configured source: the result list carries the
source keys in declaration order, whatever each run returned. -/
theorem runAll_keys (env : ScrapeEnv) (ts : String) (fuel : Nat) :
    ∀ (sources : List (String × SrcCfg)) (db : DBState) (a : AllOutcome),
      runAll env ts fuel sources db = some a →
      a.results.map Prod.fst = sources.map Prod.fst := by
  intro sources
  induction sources with
  | nil =>
    intro db a h
    simp only [runAll, Option.some.injEq] at h
    subst h
    rfl
  | cons hd tl ih =>
    intro db a h
    obtain ⟨key, src⟩ := hd
    simp only [runAll] at h
    split at h
    · exact absurd h (by simp)
    next r hr =>
      split at h
      · exact absurd h (by simp)
      next tail ha =>
        simp only [Option.some.injEq] at h
        subst h
        simpa using ih r.db tail ha

/-- C6: `runAll` processes every configured source sequentially — the
result map carries one entry per source key, in order — and for a
non-empty source list the aggregate outcome decomposes into the head
source's run (its key tagging each of its events, its added count and
error message recorded under its key) followed by the tail's run on the
resulting store, with no condition on whether the head run failed: one
source's failure does not prevent subsequent sources from running. -/
theorem runAll_sequential_isolated
    (env : ScrapeEnv) (ts : String) (fuel : Nat)
    (sources : List (String × SrcCfg)) (db : DBState) (a : AllOutcome)
    (h : runAll env ts fuel sources db = some a) :
    a.results.map Prod.fst = sources.map Prod.fst ∧
    (∀ key src rest, sources = (key, src) :: rest →
      ∃ r tail, runInternal env src (some key) ts fuel db = some r ∧
        runAll env ts fuel rest r.db = some tail ∧
        a.results = (key, r.added, r.error) :: tail.results ∧
        a.events = r.events.map (fun e => (key, e)) ++ tail.events ∧
        a.db = tail.db) := by
  refine ⟨runAll_keys env ts fuel sources db a h, ?_⟩
  intro key src rest hs
  subst hs
  simp only [runAll] at h
  split at h
  · exact absurd h (by simp)
  next r hr =>
    split at h
    · exact absurd h (by simp)
    next tail ha =>
      simp only [Option.some.injEq] at h
      subst h
      exact ⟨r, tail, hr, ha, rfl, rfl, rfl⟩

/-- C6 witness: on the two-source fixture whose first source's fetch
fails, every key still appears in the result map, in order. -/
theorem runAll_sequential_isolated_witness :
  multiOutcome.results.map Prod.fst = ["bad", "good"] :=
  (runAll_sequential_isolated multiEnv "2024-01-01T00:00:00Z" 2
    [("bad", badSrc), ("good", goodSrc)] emptyDB multiOutcome (by decide)).1

/-- Membership in the classifier's output: a tag appears exactly when
some rule carrying it has a keyword that matches the text. -/
theorem tagLoop_mem (text : String) :
    ∀ (rules : List (String × List String)) (t : String),
      t ∈ tagLoop text rules ↔
        ∃ kws, (t, kws) ∈ rules ∧
          kws.any (fun k => includesStr text (jsToLower k)) = true := by
  intro rules
  induction rules with
  | nil => intro t; simp [tagLoop]
  | cons hd tl ih =>
    intro t
    obtain ⟨tag, kws⟩ := hd
    by_cases hmatch : kws.any (fun k => includesStr text (jsToLower k)) = true
    · simp only [tagLoop, if_pos hmatch, List.mem_cons, Prod.mk.injEq]
      constructor
      · rintro (rfl | hmem)
        · exact ⟨kws, Or.inl ⟨rfl, rfl⟩, hmatch⟩
        · obtain ⟨kws2, hmem2, h2⟩ := (ih t).mp hmem
          exact ⟨kws2, Or.inr hmem2, h2⟩
      · rintro ⟨kws2, (⟨rfl, rfl⟩ | hmem2), h2⟩
        · exact Or.inl rfl
        · exact Or.inr ((ih t).mpr ⟨kws2, hmem2, h2⟩)
    · simp only [tagLoop, if_neg hmatch, List.mem_cons, Prod.mk.injEq]
      rw [ih t]
      constructor
      · rintro ⟨kws2, hmem2, h2⟩
        exact ⟨kws2, Or.inr hmem2, h2⟩
      · rintro ⟨kws2, (⟨rfl, rfl⟩ | hmem2), h2⟩
        · exact absurd h2 hmatch
        · exact ⟨kws2, hmem2, h2⟩

/-- The classifier's output is the rule list filtered to the matching
rules, keeping declaration order, projected to the tag names. -/
theorem tagLoop_filter (text : String) :
    ∀ rules, tagLoop text rules =
      (rules.filter (fun rule =>
        rule.2.any (fun k => includesStr text (jsToLower k)))).map Prod.fst := by
  intro rules
  induction rules with
  | nil => rfl
  | cons hd tl ih =>
    obtain ⟨tag, kws⟩ := hd
    by_cases hmatch : kws.any (fun k => includesStr text (jsToLower k)) = true
    · simp [tagLoop, hmatch, List.filter_cons, ih]
    · simp [tagLoop, hmatch, List.filter_cons, ih]

/-- C7 (amended): a rule's tag is in the classifier's output iff one of
its keywords occurs case-insensitively as a substring of the
space-separated join `title ++ " " ++ desc` (not the plain
concatenation); the output is the matching rules in declaration order;
and a record matching no keyword of any rule receives the empty tag
list. -/
theorem generateTags_spec_amended
    (rules : List (String × List String)) (title desc : String) :
    (∀ t, t ∈ generateTags rules title desc ↔
      ∃ kws, (t, kws) ∈ rules ∧ ∃ k ∈ kws,
        (jsToLower k).toList <:+: (jsToLower (title ++ " " ++ desc)).toList) ∧
    generateTags rules title desc =
      (rules.filter (fun rule => rule.2.any (fun k =>
        includesStr (jsToLower (title ++ " " ++ desc)) (jsToLower k)))).map
        Prod.fst ∧
    ((∀ rule ∈ rules, rule.2.any (fun k =>
        includesStr (jsToLower (title ++ " " ++ desc)) (jsToLower k)) = false) →
      generateTags rules title desc = []) := by
  refine ⟨?_, tagLoop_filter _ rules, ?_⟩
  · intro t
    rw [generateTags, tagLoop_mem]
    constructor
    · rintro ⟨kws, hmem, h2⟩
      rw [List.any_eq_true] at h2
      obtain ⟨k, hk, hinc⟩ := h2
      simp only [includesStr, decide_eq_true_eq] at hinc
      exact ⟨kws, hmem, k, hk, hinc⟩
    · rintro ⟨kws, hmem, k, hk, hinf⟩
      refine ⟨kws, hmem, List.any_eq_true.mpr ⟨k, hk, ?_⟩⟩
      simp only [includesStr, decide_eq_true_eq]
      exact hinf
  · intro hnone
    rw [generateTags, tagLoop_filter]
    have : rules.filter (fun rule => rule.2.any (fun k =>
        includesStr (jsToLower (title ++ " " ++ desc)) (jsToLower k))) = [] := by
      rw [List.filter_eq_nil_iff]
      intro rule hrule
      simp [hnone rule hrule]
    rw [this]
    rfl

/-- C7 witness: the no-match half applied to a concrete record with no
matching keyword. -/
theorem generateTags_spec_amended_witness :
  generateTags [("it", ["software"])] "Tender" "No keywords here" = [] :=
  (generateTags_spec_amended [("it", ["software"])] "Tender"
    "No keywords here").2.2 (by decide)

/-- A string whose JS truthiness check passed is not the empty string. -/
theorem ne_of_isEmpty_false (s : String) (h : s.isEmpty = false) : s ≠ "" := by
  intro he
  subst he
  exact absurd h (by decide)

/-- Every record the Contracts Finder strategy emits passed the
`if (href && title)` guard. -/
theorem parseContractsFinder_fields :
    ∀ bs, ∀ r ∈ parseContractsFinder bs, r.title ≠ "" ∧ r.link ≠ "" := by
  intro bs
  induction bs with
  | nil => intro r hr; simp [parseContractsFinder] at hr
  | cons b rest ih =>
    intro r hr
    simp only [parseContractsFinder] at hr
    split at hr
    next hkeep =>
      rcases List.mem_cons.mp hr with rfl | hmem
      · simp only [cfKeep, Bool.and_eq_true, Bool.not_eq_true'] at hkeep
        exact ⟨ne_of_isEmpty_false _ hkeep.2, ne_of_isEmpty_false _ hkeep.1⟩
      · exact ih r hmem
    next => exact ih r hr

/-- Every record the Sell2Wales strategy emits passed the
`if (title && href)` guard. -/
theorem parseSell2Wales_fields :
    ∀ bs, ∀ r ∈ parseSell2Wales bs, r.title ≠ "" ∧ r.link ≠ "" := by
  intro bs
  induction bs with
  | nil => intro r hr; simp [parseSell2Wales] at hr
  | cons b rest ih =>
    intro r hr
    simp only [parseSell2Wales] at hr
    split at hr
    next => exact ih r hr
    next a _ =>
      split at hr
      next hkeep =>
        rcases List.mem_cons.mp hr with rfl | hmem
        · simp only [s2wKeep, Bool.and_eq_true, Bool.not_eq_true'] at hkeep
          exact ⟨ne_of_isEmpty_false _ hkeep.1, ne_of_isEmpty_false _ hkeep.2⟩
        · exact ih r hmem
      next => exact ih r hr

/-- Every record the RSS strategy emits passed the `if (title && href)`
guard. -/
theorem parseRss_fields :
    ∀ bs, ∀ r ∈ parseRss bs, r.title ≠ "" ∧ r.link ≠ "" := by
  intro bs
  induction bs with
  | nil => intro r hr; simp [parseRss] at hr
  | cons b rest ih =>
    intro r hr
    simp only [parseRss] at hr
    split at hr
    next hkeep =>
      rcases List.mem_cons.mp hr with rfl | hmem
      · simp only [rssKeep, Bool.and_eq_true, Bool.not_eq_true'] at hkeep
        exact ⟨ne_of_isEmpty_false _ hkeep.1, ne_of_isEmpty_false _ hkeep.2⟩
      · exact ih r hmem
    next => exact ih r hr

/-- Every record the EU-Supply strategy emits takes its link from a
regex-captured href, which is never empty. -/
theorem parseEuSupply_link :
    ∀ bs, euRowsWF bs = true → ∀ r ∈ parseEuSupply bs, r.link ≠ "" := by
  intro bs
  induction bs with
  | nil => intro _ r hr; simp [parseEuSupply] at hr
  | cons b rest ih =>
    intro hwf r hr
    rw [euRowsWF, List.all_cons, Bool.and_eq_true] at hwf
    simp only [parseEuSupply] at hr
    split at hr
    next => exact ih hwf.2 r hr
    next a ha =>
      rcases List.mem_cons.mp hr with rfl | hmem
      · have := hwf.1
        rw [ha] at this
        simp only [Bool.not_eq_true'] at this
        exact ne_of_isEmpty_false _ this
      · exact ih hwf.2 r hmem

/-- Every record the UKRI strategy emits takes its link from a
regex-captured href, which is never empty. -/
theorem parseUkri_link :
    ∀ bs, ukriArtsWF bs = true → ∀ r ∈ parseUkri bs, r.link ≠ "" := by
  intro bs
  induction bs with
  | nil => intro _ r hr; simp [parseUkri] at hr
  | cons b rest ih =>
    intro hwf r hr
    rw [ukriArtsWF, List.all_cons, Bool.and_eq_true] at hwf
    simp only [parseUkri] at hr
    split at hr
    next => exact ih hwf.2 r hr
    next a ha =>
      split at hr
      next =>
        rcases List.mem_cons.mp hr with rfl | hmem
        · have := hwf.1
          rw [ha] at this
          simp only [Bool.not_eq_true'] at this
          exact ne_of_isEmpty_false _ this
        · exact ih hwf.2 r hmem
      next => exact ih hwf.2 r hr

/-- C3 (amended): every Extracted Record has a non-empty link; the
Contracts Finder, Sell2Wales and RSS strategies also guarantee a
non-empty title, discarding any block missing either field, while the
EU-Supply and UKRI strategies discard only blocks missing a link and may
emit a record with an empty title.  For every strategy, a page with one
malformed block (missing its link) and one well-formed block yields
exactly the one record of the well-formed block. -/
theorem extraction_required_fields_amended :
  (∀ bs, ∀ r ∈ parseContractsFinder bs, r.title ≠ "" ∧ r.link ≠ "") ∧
  (∀ bs, ∀ r ∈ parseSell2Wales bs, r.title ≠ "" ∧ r.link ≠ "") ∧
  (∀ bs, ∀ r ∈ parseRss bs, r.title ≠ "" ∧ r.link ≠ "") ∧
  (∀ bs, euRowsWF bs = true → ∀ r ∈ parseEuSupply bs, r.link ≠ "") ∧
  (∀ bs, ukriArtsWF bs = true → ∀ r ∈ parseUkri bs, r.link ≠ "") ∧
  parseContractsFinder [cfMalformed, cfDemoBlock "Good" "/g"] =
    [{ title := "Good", link := "/g", date := "", desc := "",
       organisation := "", supplier := "", ocid := "" }] ∧
  parseSell2Wales [s2wMalformed, s2wGood] =
    [{ title := "Wales tender", link := "/w1", date := "", desc := "",
       organisation := "", supplier := "", ocid := "" }] ∧
  parseUkri [ukriMalformed, ukriGood] =
    [{ title := "UKRI call", link := "/u1", date := "", desc := "",
       organisation := "", supplier := "", ocid := "" }] ∧
  parseEuSupply [euMalformed, euGood] =
    [{ title := "EU tender", link := "/e1", date := "", desc := "",
       organisation := "", supplier := "", ocid := "" }] ∧
  parseRss [rssMalformed, rssGood] =
    [{ title := "Feed tender", link := "https://feed.example/f1",
       date := "", desc := "", organisation := "", supplier := "",
       ocid := "" }] :=
  ⟨parseContractsFinder_fields, parseSell2Wales_fields, parseRss_fields,
   parseEuSupply_link, parseUkri_link,
   by decide, by decide, by decide, by decide, by decide⟩

/-- C3 witness: the EU-Supply link conjunct applied to a concrete
well-formed row. -/
theorem extraction_required_fields_amended_witness :
  ({ title := "EU tender", link := "/e1", date := "", desc := "",
     organisation := "", supplier := "", ocid := "" } : RawTender).link ≠ "" :=
  extraction_required_fields_amended.2.2.2.1 [euGood] (by decide) _ (by decide)

/-- A row present after an `insertTender` attempt was either already
present or is exactly the attempted row. -/
theorem dbInsertTender_mem (db : DBState) (row q : TenderRow)
    (h : q ∈ (dbInsertTender db row).1.tenders) :
    q ∈ db.tenders ∨ q = row := by
  unfold dbInsertTender at h
  split at h
  · exact Or.inl h
  · simp only [List.mem_append, List.mem_singleton] at h
    exact h

/-- Organisation registration never touches the tenders table. -/
theorem dbInsertOrganisation_tenders (db : DBState) (n t : String) :
    (dbInsertOrganisation db n t).1.tenders = db.tenders := by
  unfold dbInsertOrganisation
  split <;> rfl

/-- `afterOrg` never touches the tenders table of its step result. -/
theorem afterOrg_tenders (t : RawTender) (step : DBState × Nat) :
    (afterOrg t step).tenders = step.1.tenders := by
  unfold afterOrg
  split
  · exact dbInsertOrganisation_tenders _ _ _
  · rfl

/-- A row present after one insert attempt of the persistence loop was
either already present or has a NULL ocid (the loop builds every row with
`ocid := none`). -/
theorem insertAttempt_mem (env : ScrapeEnv) (label runTs : String)
    (t : RawTender) (db : DBState) (q : TenderRow)
    (h : q ∈ (insertAttempt env label runTs t db).1.tenders) :
    q ∈ db.tenders ∨ q.ocid = none := by
  unfold insertAttempt at h
  split at h
  · exact Or.inl h
  · rcases dbInsertTender_mem _ _ _ h with hmem | rfl
    · exact Or.inl hmem
    · exact Or.inr rfl

/-- Every row the persistence loop adds has a NULL ocid. -/
theorem persistLoop_ocid_none (env : ScrapeEnv) (label runTs : String)
    (total : Nat) :
    ∀ (list : List RawTender) (idx : Nat) (db : DBState) (q : TenderRow),
      q ∈ (persistLoop env label runTs total idx list db).1.tenders →
      q ∈ db.tenders ∨ q.ocid = none := by
  intro list
  induction list with
  | nil => intro idx db q h; exact Or.inl h
  | cons t rest ih =>
    intro idx db q h
    simp only [persistLoop] at h
    rcases ih (idx + 1) _ q h with hmem | hocid
    · rw [afterOrg_tenders] at hmem
      exact insertAttempt_mem env label runTs t db q hmem
    · exact Or.inr hocid

/-- Setting the completion timestamp never touches the tenders table. -/
theorem dbSetLastScraped_tenders (db : DBState) (ts : String) :
    (dbSetLastScraped db ts).tenders = db.tenders := rfl

/-- Updating source statistics never touches the tenders table. -/
theorem dbUpdateSourceStats_tenders (db : DBState) (key ts : String)
    (added : Nat) :
    (dbUpdateSourceStats db key ts added).tenders = db.tenders := by
  unfold dbUpdateSourceStats
  split <;> rfl

/-- C9: every row stored through the run orchestrator has a NULL ocid —
`runInternal` passes seven arguments to `insertTender`, so the extracted
identifier never reaches the store — and for a NULL-ocid row the
idempotent insert skips exactly when the link already exists: the ocid
uniqueness constraint is never triggered by NULL, so any number of rows
without an identifier coexist. -/
theorem orchestrator_ocid_null
    (env : ScrapeEnv) (src : SrcCfg) (key : Option String) (ts : String)
    (fuel : Nat) (db : DBState) (r : RunOutcome)
    (h : runInternal env src key ts fuel db = some r) :
    (∀ row ∈ r.db.tenders, row ∈ db.tenders ∨ row.ocid = none) ∧
    (∀ (db2 : DBState) (row : TenderRow), row.ocid = none →
      dbInsertTender db2 row =
        (if db2.tenders.any (fun q => q.link == row.link) then (db2, 0)
         else ({ db2 with tenders := db2.tenders ++ [row] }, 1))) := by
  constructor
  · intro row hrow
    unfold runInternal at h
    split at h
    · exact absurd h (by simp)
    · simp only [Option.some.injEq] at h
      subst h
      exact Or.inl hrow
    · rename_i allT heq
      simp only [Option.some.injEq] at h
      subst h
      have hrow2 : row ∈
          (persistLoop env src.label ts allT.length 0 allT db).1.tenders := by
        cases key with
        | none => exact hrow
        | some k =>
          rw [dbUpdateSourceStats_tenders] at hrow
          exact hrow
      exact persistLoop_ocid_none env src.label ts allT.length allT 0 db
        row hrow2
  · intro db2 row hocid
    unfold dbInsertTender
    simp [linkDup, ocidDup, hocid]

/-- C9 witness: the stored row of the shared-ocid fixture, checked
against the theorem's first conjunct at a concrete run. -/
theorem orchestrator_ocid_null_witness :
  ({ title := "Tender A", link := "https://dup.example/a", ocid := none,
     date := "", description := "", source := "Dup",
     scraped_at := "2024-01-01T00:00:00Z", tags := "" } : TenderRow) ∈
      emptyDB.tenders ∨
  ({ title := "Tender A", link := "https://dup.example/a", ocid := none,
     date := "", description := "", source := "Dup",
     scraped_at := "2024-01-01T00:00:00Z", tags := "" } : TenderRow).ocid =
      none :=
  (orchestrator_ocid_null dupEnv dupSrc (some "default")
    "2024-01-01T00:00:00Z" 2 emptyDB dupOutcome (by decide)).1 _ (by decide)

/-- Updating source statistics never touches the completion timestamp. -/
theorem dbUpdateSourceStats_lastScraped (db : DBState) (key ts : String)
    (added : Nat) :
    (dbUpdateSourceStats db key ts added).lastScraped = db.lastScraped := by
  unfold dbUpdateSourceStats
  split <;> rfl

/-- C10: the persistence loop emits exactly one tender event per
accumulated record (first conjunct); a record whose store insert throws
— or whose link is already stored — contributes an event with
`inserted = false`, adds nothing, leaves the store unchanged, and the
loop continues with the next record, so the event stream cannot
distinguish the two cases (second conjunct); and a run whose pagination
succeeded persists its completion timestamp regardless of per-record
store errors, its events being start, found, then the loop's events
(third conjunct). -/
theorem persist_error_event_stream :
  (∀ (env : ScrapeEnv) (label ts : String) (total idx : Nat)
     (list : List RawTender) (db : DBState),
     ((persistLoop env label ts total idx list db).2.2).length =
       list.length) ∧
  (∀ (env : ScrapeEnv) (label ts : String) (total idx : Nat)
     (t : RawTender) (rest : List RawTender) (db : DBState),
     (env.insertFails (env.resolve t.link) = true ∨
      linkDup db (tenderRowOf env label ts t) = true) →
     persistLoop env label ts total idx (t :: rest) db =
       ((persistLoop env label ts total (idx + 1) rest db).1,
        (persistLoop env label ts total (idx + 1) rest db).2.1,
        ProgressEvent.tender t.title (idx + 1) total false ::
          (persistLoop env label ts total (idx + 1) rest db).2.2)) ∧
  (∀ (env : ScrapeEnv) (src : SrcCfg) (key : Option String) (ts : String)
     (fuel : Nat) (db : DBState) (l : List RawTender),
     pageLoop env src.parser fuel src.url = some (Except.ok l) →
     ∃ r, runInternal env src key ts fuel db = some r ∧
       r.db.lastScraped = some ts ∧
       r.events = ProgressEvent.start src.label src.url ::
         ProgressEvent.found l.length ::
         (persistLoop env src.label ts l.length 0 l db).2.2) := by
  refine ⟨?_, ?_, ?_⟩
  · intro env label ts total idx list db
    induction list generalizing idx db with
    | nil => rfl
    | cons t rest ih =>
      simp only [persistLoop, List.length_cons]
      rw [ih]
  · intro env label ts total idx t rest db h
    have hstep : insertAttempt env label ts t db = (db, 0) := by
      unfold insertAttempt
      rcases h with hf | hd
      · simp [hf]
      · by_cases hf : env.insertFails (env.resolve t.link) = true
        · simp [hf]
        · simp only [Bool.not_eq_true] at hf
          simp [hf, dbInsertTender, hd]
    simp only [persistLoop, hstep, afterOrg]
    simp
  · intro env src key ts fuel db l h
    unfold runInternal
    rw [h]
    cases key with
    | none => exact ⟨_, rfl, rfl, rfl⟩
    | some k =>
      refine ⟨_, rfl, ?_, rfl⟩
      rw [dbUpdateSourceStats_lastScraped]
      rfl

/-- C10 witness: on the store-error fixture the failing first record
yields a `false`-flagged event and the loop continues, and the run still
persists its completion timestamp. -/
theorem persist_error_event_stream_witness :
  persistLoop errEnv "Err" "TS" 2 0
      [cfRecord (cfDemoBlock "Bad" "/bad"), cfRecord (cfDemoBlock "Ok" "/ok")]
      emptyDB =
    ((persistLoop errEnv "Err" "TS" 2 1
        [cfRecord (cfDemoBlock "Ok" "/ok")] emptyDB).1,
     (persistLoop errEnv "Err" "TS" 2 1
        [cfRecord (cfDemoBlock "Ok" "/ok")] emptyDB).2.1,
     ProgressEvent.tender "Bad" 1 2 false ::
       (persistLoop errEnv "Err" "TS" 2 1
          [cfRecord (cfDemoBlock "Ok" "/ok")] emptyDB).2.2) ∧
  (∃ r, runInternal errEnv errSrc (some "default") "TS" 2 emptyDB = some r ∧
    r.db.lastScraped = some "TS") := by
  constructor
  · exact persist_error_event_stream.2.1 errEnv "Err" "TS" 2 0
      (cfRecord (cfDemoBlock "Bad" "/bad"))
      [cfRecord (cfDemoBlock "Ok" "/ok")] emptyDB (Or.inl (by decide))
  · obtain ⟨r, h1, h2, _⟩ := persist_error_event_stream.2.2 errEnv errSrc
      (some "default") "TS" 2 emptyDB
      (parseTenders errPage "contractsFinder") (by decide)
    exact ⟨r, h1, h2⟩
